import Mathlib

/-!
# A shallow embedding of the keychain FFI layer

This development embeds the Rust sources of the `rust-ffi-demo` repository
(`src/keychain/mod.rs` and `src/keychain/cfutil.rs`) into Lean.

Host byte strings (`&str`, `String`, `Vec<u8>`) become `Bytes := List Nat`.
CoreFoundation objects live in an explicit heap of reference-counted cells
addressed by natural-number handles; well-known CoreFoundation / Security
constants (`kSecClass`, `kCFBooleanTrue`, ...) are fixed handles below 10
that are not subject to reference counting.  Every foreign call is a pure
function on an `FFI` state that also records an event trace: creations,
releases, borrows (the CoreFoundation Get rule) and store requests.

The native credential store itself (the generated `native` bindings and the
Security framework behind them) is not part of the repository sources; its
behaviour is modelled from the specification of the external interface
(add / delete / copyMatching / errorMessage), as noted on each definition.
-/

namespace Keychain

/-- Host byte strings: Rust `&str` / `String` / `Vec<u8>` as raw byte lists. -/
abbrev Bytes := List Nat

/-- `OSStatus` is a 32-bit signed integer status code; no arithmetic is ever
performed on it, so `Int` is a faithful carrier. -/
abbrev OSStatus := Int

/-- Modelled from the spec: the single success status code of the store
(`errSecSuccess` in the generated bindings, value from the macOS SDK). -/
def errSecSuccess : OSStatus := 0

/-- Modelled from the spec: the authorization/authentication failure code. -/
def errSecAuthFailed : OSStatus := -25293

/-- Modelled from the spec: the duplicate-item failure code. -/
def errSecDuplicateItem : OSStatus := -25299

/-- Modelled from the spec: the item-not-found failure code. -/
def errSecItemNotFound : OSStatus := -25300

/-- Modelled from the spec: the invalid owner-edit failure code. -/
def errSecInvalidOwnerEdit : OSStatus := -25244

/-- Modelled from the spec: the status code the store reports for a
malformed request; never produced for the queries this code builds. -/
def errSecParam : OSStatus := -50

/-! ## Well-known constant handles

The `kSec*` / `kCF*` globals are CoreFoundation objects with static
lifetime; they are modelled as fixed handles below `firstDynamicHandle`
that never appear in the reference-counted heap. -/

def kSecClass : Nat := 0

def kSecClassGenericPassword : Nat := 1

def kSecAttrService : Nat := 2

def kSecAttrAccount : Nat := 3

def kSecValueData : Nat := 4

def kSecMatchLimit : Nat := 5

def kSecMatchLimitOne : Nat := 6

def kSecReturnAttributes : Nat := 7

def kSecReturnData : Nat := 8

def kCFBooleanTrue : Nat := 9

/-- Dynamically created handles start here. -/
def firstDynamicHandle : Nat := 10

/-! ## The data model of `mod.rs` -/

/-- `Account` from `mod.rs`: a `name` and a `password`, both Rust `String`s
(byte sequences treated as text). -/
structure Account where
  name : Bytes
  password : Bytes
deriving DecidableEq, Repr

/-- `KeychainErrorCode` from `mod.rs`. -/
inductive KeychainErrorCode where
  | AuthFailed
  | DuplicateItem
  | ItemNotFound
  | InvalidOwnerEdit
  | UnknownStatusCode (code : OSStatus)
deriving DecidableEq, Repr

/-- `impl From<OSStatus> for KeychainErrorCode` from `mod.rs`: the if-else
chain over the four known codes with the catch-all default. -/
def KeychainErrorCode.fromStatus (status : OSStatus) : KeychainErrorCode :=
  if status = errSecAuthFailed then .AuthFailed
  else if status = errSecDuplicateItem then .DuplicateItem
  else if status = errSecItemNotFound then .ItemNotFound
  else if status = errSecInvalidOwnerEdit then .InvalidOwnerEdit
  else .UnknownStatusCode status

/-- `KeychainError` from `mod.rs`: a code plus a human-readable message. -/
structure KeychainError where
  status : KeychainErrorCode
  message : Bytes
deriving DecidableEq, Repr

/-! ## The foreign heap and event trace -/

/-- The payload of a CoreFoundation object in the modelled heap. -/
inductive CFVal where
  | str (bytes : Bytes)
  | data (bytes : Bytes)
  | dict (pairs : List (Nat × Nat))
deriving DecidableEq, Repr

/-- A heap cell: payload plus reference count (0 means freed). -/
structure CFObj where
  val : CFVal
  rc : Nat
deriving DecidableEq, Repr

/-- One entry of the modelled credential store. -/
structure StoreEntry where
  service : Bytes
  account : Bytes
  password : Bytes
deriving DecidableEq, Repr

/-- An observable event of the foreign layer. -/
inductive Event where
  | created (h : Nat)
  | released (h : Nat)
  | borrowed (h : Nat)
  | addRequest (service account password : Bytes)
  | deleteRequest (cls : Nat) (service : Bytes)
  | copyRequest (service : Bytes)
deriving DecidableEq, Repr

abbrev Heap := List (Nat × CFObj)

/-- The whole foreign-layer state: heap, fresh-handle counter, credential
store contents, an optional store fault (a status code every request
reports without effect, modelled from the spec's store-defined
authorization/availability failures), the event trace, and flags recording
a double release or a contract panic. -/
structure FFI where
  heap : Heap
  next : Nat
  store : List StoreEntry
  fault : Option OSStatus
  events : List Event
  doubleFree : Bool
  panicked : Bool
deriving DecidableEq, Repr

/-- The state at the start of a public operation: empty heap, fresh handles
from `firstDynamicHandle`, the given store contents and fault. -/
def initFFI (store : List StoreEntry) (fault : Option OSStatus) : FFI :=
  { heap := [], next := firstDynamicHandle, store := store, fault := fault,
    events := [], doubleFree := false, panicked := false }

/-! ## Heap primitives -/

def heapGet (hp : Heap) (h : Nat) : Option CFObj :=
  List.lookup h hp

def heapSet (hp : Heap) (h : Nat) (o : CFObj) : Heap :=
  hp.map (fun p => if p.1 = h then (h, o) else p)

/-- Bump the reference count of `h`; constant handles (absent from the
heap) are unaffected. -/
def retain (hp : Heap) (h : Nat) : Heap :=
  match heapGet hp h with
  | some o => heapSet hp h ⟨o.val, o.rc + 1⟩
  | none => hp

/-- The member handles a dictionary retains: all keys and all values. -/
def flattenPairs : List (Nat × Nat) → List Nat
  | [] => []
  | (k, v) :: rest => k :: v :: flattenPairs rest

def retainMany : List Nat → Heap → Heap
  | [], hp => hp
  | h :: t, hp => retainMany t (retain hp h)

/-- Release every member of a freed dictionary (the value callbacks of
`CFDictionaryCreate` release the retained keys and values; no `released`
event, these are internal decrements).  The boolean accumulates whether an
already-freed member was decremented (an underflow, i.e. a double
release). -/
def releaseMembers : List Nat → Heap → Bool → Heap × Bool
  | [], hp, bad => (hp, bad)
  | h :: t, hp, bad =>
    match heapGet hp h with
    | some o =>
      if o.rc = 0 then releaseMembers t hp true
      else releaseMembers t (heapSet hp h ⟨o.val, o.rc - 1⟩) bad
    | none => releaseMembers t hp bad

/-- Allocate a fresh object with reference count 1 and record a `created`
event: the caller owns the result (CoreFoundation Create/Copy rule). -/
def alloc (v : CFVal) (s : FFI) : Nat × FFI :=
  (s.next,
   { s with heap := s.heap ++ [(s.next, ⟨v, 1⟩)],
            next := s.next + 1,
            events := s.events ++ [Event.created s.next] })

/-- `CFRelease`: record a `released` event and decrement the count; when a
dictionary drops to zero its retained members are released as well.
Releasing an already-freed object sets the `doubleFree` flag. -/
def CFRelease (h : Nat) (s : FFI) : FFI :=
  let s1 := { s with events := s.events ++ [Event.released h] }
  match heapGet s1.heap h with
  | none => s1
  | some o =>
    if o.rc = 0 then { s1 with doubleFree := true }
    else if o.rc = 1 then
      let hp := heapSet s1.heap h ⟨o.val, 0⟩
      match o.val with
      | CFVal.dict pairs =>
        match releaseMembers (flattenPairs pairs) hp false with
        | (hp2, bad) => { s1 with heap := hp2, doubleFree := s1.doubleFree || bad }
      | _ => { s1 with heap := hp }
    else { s1 with heap := heapSet s1.heap h ⟨o.val, o.rc - 1⟩ }

/-! ## CoreFoundation constructors and accessors used by the sources -/

/-- `CFStringCreateWithBytesNoCopy` over a host buffer (mod.rs builds all
service/account strings this way). -/
def CFStringCreateWithBytesNoCopy (bytes : Bytes) (s : FFI) : Nat × FFI :=
  alloc (CFVal.str bytes) s

/-- `CFDataCreateWithBytesNoCopy` over a host buffer. -/
def CFDataCreateWithBytesNoCopy (bytes : Bytes) (s : FFI) : Nat × FFI :=
  alloc (CFVal.data bytes) s

/-- `CFStringCreateExternalRepresentation` with the UTF-8 encoding: a fresh
`CFData` holding the string's bytes.  A missing handle is a contract
violation (the Rust caller asserts non-null first). -/
def CFStringCreateExternalRepresentation (h : Nat) (s : FFI) : Nat × FFI :=
  match heapGet s.heap h with
  | some o =>
    match o.val with
    | CFVal.str bytes => alloc (CFVal.data bytes) s
    | _ => (0, { s with panicked := true })
  | none => (0, { s with panicked := true })

/-- Value lookup in a dictionary object. -/
def dictLookup (s : FFI) (d : Nat) (key : Nat) : Option Nat :=
  match heapGet s.heap d with
  | some o =>
    match o.val with
    | CFVal.dict pairs => List.lookup key pairs
    | _ => none
  | none => none

/-- `CFDictionaryGetValue`: the Get rule — the returned handle stays owned
by the dictionary; the access is recorded as a `borrowed` event. -/
def CFDictionaryGetValue (d : Nat) (key : Nat) (s : FFI) : Option Nat × FFI :=
  match dictLookup s d key with
  | some h => (some h, { s with events := s.events ++ [Event.borrowed h] })
  | none => (none, s)

def strVal (s : FFI) (h : Nat) : Option Bytes :=
  match heapGet s.heap h with
  | some o =>
    match o.val with
    | CFVal.str bytes => some bytes
    | _ => none
  | none => none

def dataVal (s : FFI) (h : Nat) : Option Bytes :=
  match heapGet s.heap h with
  | some o =>
    match o.val with
    | CFVal.data bytes => some bytes
    | _ => none
  | none => none

/-! ## cfutil.rs -/

/-- `String::from_utf8_unchecked`: the bytes become the text verbatim, with
no validation whatsoever. -/
def from_utf8_unchecked (bytes : Bytes) : Bytes := bytes

/-- `vec_from_cfdata` from `cfutil.rs`: copy the blob's bytes into an owned
buffer; the blob is not released.  A null/missing handle violates the
stated precondition (assert). -/
def vec_from_cfdata (h : Nat) (s : FFI) : Bytes × FFI :=
  match dataVal s h with
  | some bytes => (bytes, s)
  | none => ([], { s with panicked := true })

/-- `string_from_cf_string` from `cfutil.rs`: create the UTF-8 external
representation, copy its bytes (unchecked conversion to text), release the
temporary representation. -/
def string_from_cf_string (h : Nat) (s : FFI) : Bytes × FFI :=
  let (cf_utf8, s1) := CFStringCreateExternalRepresentation h s
  let (v, s2) := vec_from_cfdata cf_utf8 s1
  let s3 := CFRelease cf_utf8 s2
  (from_utf8_unchecked v, s3)

/-- `create_dictionary` from `cfutil.rs`: `CFDictionaryCreate` with the
`kCFType` key/value callbacks, so the dictionary retains its own reference
to every key and value; the caller owns the returned dictionary.  Invoked
by `mod.rs` with the key/value pairs of each query. -/
def create_dictionary (pairs : List (Nat × Nat)) (s : FFI) : Nat × FFI :=
  alloc (CFVal.dict pairs) { s with heap := retainMany (flattenPairs pairs) s.heap }

/-! ## The modelled credential store (external interface, spec section 6) -/

/-- Does `e` match the add-time uniqueness key (service plus account name)? -/
def matchesKey (svc acc : Bytes) (e : StoreEntry) : Bool :=
  decide (e.service = svc) && decide (e.account = acc)

def hasDuplicate (store : List StoreEntry) (svc acc : Bytes) : Bool :=
  store.any (matchesKey svc acc)

def firstForService (store : List StoreEntry) (svc : Bytes) : Option StoreEntry :=
  store.find? (fun e => decide (e.service = svc))

def removeService (store : List StoreEntry) (svc : Bytes) : List StoreEntry :=
  store.filter (fun e => decide (e.service ≠ svc))

/-- Modelled from the spec: `add(attributes) -> status` — inserts a new
entry, failing with the duplicate-item status when service+account already
exists; under a store fault every request reports the fault code without
effect. -/
def SecItemAdd (attributes : Nat) (s : FFI) : OSStatus × FFI :=
  match s.fault with
  | some c => (c, s)
  | none =>
    match (dictLookup s attributes kSecAttrService).bind (strVal s),
          (dictLookup s attributes kSecAttrAccount).bind (strVal s),
          (dictLookup s attributes kSecValueData).bind (dataVal s) with
    | some svc, some acc, some pw =>
      let s1 := { s with events := s.events ++ [Event.addRequest svc acc pw] }
      if hasDuplicate s1.store svc acc then (errSecDuplicateItem, s1)
      else (errSecSuccess, { s1 with store := s1.store ++ [⟨svc, acc, pw⟩] })
    | _, _, _ => (errSecParam, s)

/-- Modelled from the spec: `delete(query) -> status` — removes all entries
matching the query's service (a bulk delete); nothing to delete still
reports success (spec section 9). -/
def SecItemDelete (query : Nat) (s : FFI) : OSStatus × FFI :=
  match s.fault with
  | some c => (c, s)
  | none =>
    match dictLookup s query kSecClass,
          (dictLookup s query kSecAttrService).bind (strVal s) with
    | some cls, some svc =>
      let s1 := { s with events := s.events ++ [Event.deleteRequest cls svc] }
      (errSecSuccess, { s1 with store := removeService s1.store svc })
    | _, _ => (errSecParam, s)

/-- Modelled from the spec: `copyMatching(query) -> (status, result)` — the
first entry for the service, returned as an owned result dictionary whose
account-name and secret-data members are owned by the dictionary itself. -/
def SecItemCopyMatching (query : Nat) (s : FFI) : (OSStatus × Option Nat) × FFI :=
  match s.fault with
  | some c => ((c, none), s)
  | none =>
    match (dictLookup s query kSecAttrService).bind (strVal s) with
    | some svc =>
      let s1 := { s with events := s.events ++ [Event.copyRequest svc] }
      match firstForService s1.store svc with
      | none => ((errSecItemNotFound, none), s1)
      | some e =>
        let ha := s1.next
        let hp := s1.next + 1
        let s2 := { s1 with
          heap := s1.heap ++ [(ha, ⟨CFVal.str e.account, 1⟩), (hp, ⟨CFVal.data e.password, 1⟩)],
          next := s1.next + 2 }
        let (res, s3) := alloc (CFVal.dict [(kSecAttrAccount, ha), (kSecValueData, hp)]) s2
        ((errSecSuccess, some res), s3)
    | none => ((errSecParam, none), s)

/-- Modelled from the spec: `errorMessage(status)` — the store's
human-readable description of a status code, as bytes. -/
def errorMessageBytes (status : OSStatus) : Bytes :=
  (toString status).data.map Char.toNat

/-- Modelled from the spec: `SecCopyErrorMessageString` — a fresh owned
foreign string holding the store's message for `status`. -/
def SecCopyErrorMessageString (status : OSStatus) (s : FFI) : Nat × FFI :=
  alloc (CFVal.str (errorMessageBytes status)) s

/-! ## mod.rs: error construction and the three public operations -/

/-- `impl From<OSStatus> for KeychainError` from `mod.rs`: fetch the
message string from the store, convert it, release it. -/
def KeychainError.fromOSStatus (status : OSStatus) (s : FFI) : KeychainError × FFI :=
  let (cf_message, s1) := SecCopyErrorMessageString status s
  let (msg, s2) := string_from_cf_string cf_message s1
  let s3 := CFRelease cf_message s2
  (⟨KeychainErrorCode.fromStatus status, msg⟩, s3)

/-- `status_to_result` from `mod.rs`. -/
def status_to_result (status : OSStatus) (s : FFI) : Except KeychainError Unit × FFI :=
  if status = errSecSuccess then (Except.ok (), s)
  else
    let (e, s1) := KeychainError.fromOSStatus status s
    (Except.error e, s1)

/-- `add_generic_password` from `mod.rs`. -/
def add_generic_password (service : Bytes) (account : Account) (s : FFI) :
    Except KeychainError Unit × FFI :=
  let (cf_service, s1) := CFStringCreateWithBytesNoCopy service s
  let (cf_account, s2) := CFStringCreateWithBytesNoCopy account.name s1
  let (cf_password, s3) := CFDataCreateWithBytesNoCopy account.password s2
  let items := [(kSecClass, kSecClassGenericPassword),
                (kSecAttrService, cf_service),
                (kSecAttrAccount, cf_account),
                (kSecValueData, cf_password)]
  let (attributes, s4) := create_dictionary items s3
  let (status, s5) := SecItemAdd attributes s4
  let s6 := CFRelease attributes s5
  let s7 := CFRelease cf_service s6
  let s8 := CFRelease cf_account s7
  let s9 := CFRelease cf_password s8
  status_to_result status s9

/-- `delete_generic_passwords_by_service` from `mod.rs`. -/
def delete_generic_passwords_by_service (service : Bytes) (s : FFI) :
    Except KeychainError Unit × FFI :=
  let (cf_service, s1) := CFStringCreateWithBytesNoCopy service s
  let items := [(kSecClass, kSecClassGenericPassword),
                (kSecAttrService, cf_service)]
  let (query, s2) := create_dictionary items s1
  let (status, s3) := SecItemDelete query s2
  let s4 := CFRelease query s3
  let s5 := CFRelease cf_service s4
  status_to_result status s5

/-- The success tail of `find_generic_password_by_service`: read the two
borrowed fields out of the result container (Get rule), convert them, and
release the container.  A missing field fires the `assert!` inside the
conversion helpers of the Rust code, modelled by the `panicked` flag. -/
def convert_found (res : Nat) (s : FFI) : Option (Except KeychainError Account) × FFI :=
  let (oa, s7) := CFDictionaryGetValue res kSecAttrAccount s
  let (op, s8) := CFDictionaryGetValue res kSecValueData s7
  match oa, op with
  | some cf_account, some cf_password =>
    let (name, s9) := string_from_cf_string cf_account s8
    let (pw, s10) := vec_from_cfdata cf_password s9
    let account : Account := ⟨name, from_utf8_unchecked pw⟩
    let s11 := CFRelease res s10
    (some (Except.ok account), s11)
  | _, _ => (none, { s8 with panicked := true })

/-- The tail of `find_generic_password_by_service` after the copy request
and the query/service releases: the `status_to_result(status)?` early
return of the Rust code (inlined), then the non-null assertion on the
result handle, then the field conversion.  A `none` first component is
exactly a fired `assert!` (a broken store contract). -/
def find_after_copy (status : OSStatus) (result : Option Nat) (s : FFI) :
    Option (Except KeychainError Account) × FFI :=
  if status = errSecSuccess then
    match result with
    | none => (none, { s with panicked := true })
    | some res => convert_found res s
  else
    let (e, s6) := KeychainError.fromOSStatus status s
    (some (Except.error e), s6)

/-- `find_generic_password_by_service` from `mod.rs`. -/
def find_generic_password_by_service (service : Bytes) (s : FFI) :
    Option (Except KeychainError Account) × FFI :=
  let (cf_service, s1) := CFStringCreateWithBytesNoCopy service s
  let items := [(kSecClass, kSecClassGenericPassword),
                (kSecAttrService, cf_service),
                (kSecMatchLimit, kSecMatchLimitOne),
                (kSecReturnAttributes, kCFBooleanTrue),
                (kSecReturnData, kCFBooleanTrue)]
  let (query, s2) := create_dictionary items s1
  let ((status, result), s3) := SecItemCopyMatching query s2
  let s4 := CFRelease cf_service s3
  let s5 := CFRelease query s4
  find_after_copy status result s5

/-! ## Trace observations -/

/-- The handles acquired by the operation (Create/Copy rule). -/
def createdHandles (tr : List Event) : List Nat :=
  tr.filterMap (fun e => match e with | Event.created h => some h | _ => none)

/-- The handles passed to `CFRelease` by the operation. -/
def releasedHandles (tr : List Event) : List Nat :=
  tr.filterMap (fun e => match e with | Event.released h => some h | _ => none)

/-- The delete requests issued to the store. -/
def deleteRequests (tr : List Event) : List Event :=
  tr.filter (fun e => match e with | Event.deleteRequest _ _ => true | _ => false)

/-- The handles read out of a container under the Get rule (borrowed
views). -/
def borrowedHandles (tr : List Event) : List Nat :=
  tr.filterMap (fun e => match e with | Event.borrowed h => some h | _ => none)

/-- Resource balance: the multiset of released handles is exactly the
multiset of created handles, and no handle is created twice. -/
def balanced (tr : List Event) : Prop :=
  (createdHandles tr).Perm (releasedHandles tr) ∧ (createdHandles tr).Nodup

instance (tr : List Event) : Decidable (balanced tr) := by
  unfold balanced; infer_instance

/-! ## Heap well-formedness and a UTF-8 validator -/

/-- Heap well-formedness: every allocated handle is below the fresh-handle
counter. -/
def wfFFI (s : FFI) : Prop :=
  ∀ p ∈ s.heap, p.1 < s.next

instance (s : FFI) : Decidable (wfFFI s) := by
  unfold wfFFI
  infer_instance

/-! ## A UTF-8 validator (used only to state that the code never validates) -/

/-- Is `b` a UTF-8 continuation byte (`0x80..0xBF`)? -/
def isCont (b : Nat) : Bool :=
  0x80 ≤ b && b ≤ 0xBF

/-- A standard table-driven UTF-8 well-formedness check (RFC 3629),
declared so that the absence of validation in the code can be stated.  The
code under verification never calls anything like this. -/
def utf8Valid : List Nat → Bool
  | [] => true
  | b :: rest =>
    if b ≤ 0x7F then utf8Valid rest
    else if 0xC2 ≤ b && b ≤ 0xDF then
      match rest with
      | c1 :: rest1 => isCont c1 && utf8Valid rest1
      | [] => false
    else if b = 0xE0 then
      match rest with
      | c1 :: c2 :: rest2 => (0xA0 ≤ c1 && c1 ≤ 0xBF) && isCont c2 && utf8Valid rest2
      | _ => false
    else if (0xE1 ≤ b && b ≤ 0xEC) || b = 0xEE || b = 0xEF then
      match rest with
      | c1 :: c2 :: rest2 => isCont c1 && isCont c2 && utf8Valid rest2
      | _ => false
    else if b = 0xED then
      match rest with
      | c1 :: c2 :: rest2 => (0x80 ≤ c1 && c1 ≤ 0x9F) && isCont c2 && utf8Valid rest2
      | _ => false
    else if b = 0xF0 then
      match rest with
      | c1 :: c2 :: c3 :: rest3 =>
        (0x90 ≤ c1 && c1 ≤ 0xBF) && isCont c2 && isCont c3 && utf8Valid rest3
      | _ => false
    else if 0xF1 ≤ b && b ≤ 0xF3 then
      match rest with
      | c1 :: c2 :: c3 :: rest3 => isCont c1 && isCont c2 && isCont c3 && utf8Valid rest3
      | _ => false
    else if b = 0xF4 then
      match rest with
      | c1 :: c2 :: c3 :: rest3 =>
        (0x80 ≤ c1 && c1 ≤ 0x8F) && isCont c2 && isCont c3 && utf8Valid rest3
      | _ => false
    else false

/-! ## Symbolic execution of the operations, one lemma per control path -/

section CharLemmas

/-- `status_to_result` on a failing status builds the error from that
status. -/
theorem status_to_result_err (c : OSStatus) (hc : c ≠ errSecSuccess) (s : FFI) :
    status_to_result c s =
      (Except.error (KeychainError.fromOSStatus c s).1, (KeychainError.fromOSStatus c s).2) := by
  unfold status_to_result
  rw [if_neg hc]

/-! Single-step reduction lemmas used to run the operations symbolically;
each rewrites one foreign call on an explicit state literal to an explicit
result literal, so that staged `simp` calls keep terms small. -/

theorem CFString_run (bytes : Bytes) (hp : Heap) (nx : Nat) (st : List StoreEntry)
    (f : Option OSStatus) (ev : List Event) (df pk : Bool) :
    CFStringCreateWithBytesNoCopy bytes ⟨hp, nx, st, f, ev, df, pk⟩ =
      (nx, ⟨hp ++ [(nx, ⟨CFVal.str bytes, 1⟩)], nx + 1, st, f,
            ev ++ [Event.created nx], df, pk⟩) := rfl

theorem CFData_run (bytes : Bytes) (hp : Heap) (nx : Nat) (st : List StoreEntry)
    (f : Option OSStatus) (ev : List Event) (df pk : Bool) :
    CFDataCreateWithBytesNoCopy bytes ⟨hp, nx, st, f, ev, df, pk⟩ =
      (nx, ⟨hp ++ [(nx, ⟨CFVal.data bytes, 1⟩)], nx + 1, st, f,
            ev ++ [Event.created nx], df, pk⟩) := rfl

theorem create_dictionary_run (pairs : List (Nat × Nat)) (hp : Heap) (nx : Nat)
    (st : List StoreEntry) (f : Option OSStatus) (ev : List Event) (df pk : Bool) :
    create_dictionary pairs ⟨hp, nx, st, f, ev, df, pk⟩ =
      (nx, ⟨retainMany (flattenPairs pairs) hp ++ [(nx, ⟨CFVal.dict pairs, 1⟩)], nx + 1,
            st, f, ev ++ [Event.created nx], df, pk⟩) := rfl

theorem SecItemAdd_fault (a : Nat) (c : OSStatus) (hp : Heap) (nx : Nat)
    (st : List StoreEntry) (ev : List Event) (df pk : Bool) :
    SecItemAdd a ⟨hp, nx, st, some c, ev, df, pk⟩ = (c, ⟨hp, nx, st, some c, ev, df, pk⟩) := rfl

theorem SecItemDelete_fault (q : Nat) (c : OSStatus) (hp : Heap) (nx : Nat)
    (st : List StoreEntry) (ev : List Event) (df pk : Bool) :
    SecItemDelete q ⟨hp, nx, st, some c, ev, df, pk⟩ = (c, ⟨hp, nx, st, some c, ev, df, pk⟩) := rfl

theorem SecItemCopyMatching_fault (q : Nat) (c : OSStatus) (hp : Heap) (nx : Nat)
    (st : List StoreEntry) (ev : List Event) (df pk : Bool) :
    SecItemCopyMatching q ⟨hp, nx, st, some c, ev, df, pk⟩ =
      ((c, none), ⟨hp, nx, st, some c, ev, df, pk⟩) := rfl

theorem find_after_copy_err (c : OSStatus) (hc : ¬c = errSecSuccess)
    (result : Option Nat) (s : FFI) :
    find_after_copy c result s =
      (some (Except.error (KeychainError.fromOSStatus c s).1),
       (KeychainError.fromOSStatus c s).2) := by
  unfold find_after_copy
  rw [if_neg hc]

theorem find_after_copy_panic (s : FFI) :
    find_after_copy errSecSuccess none s = (none, { s with panicked := true }) := rfl

theorem find_after_copy_found (res : Nat) (s : FFI) :
    find_after_copy errSecSuccess (some res) s = convert_found res s := rfl

theorem add_char_fault_err (c : OSStatus) (hc : ¬c = errSecSuccess)
    (store : List StoreEntry) (service : Bytes) (account : Account) :
    add_generic_password service account (initFFI store (some c)) =
      (Except.error ⟨KeychainErrorCode.fromStatus c, errorMessageBytes c⟩,
       { heap := [(10, ⟨CFVal.str service, 0⟩),
                  (11, ⟨CFVal.str account.name, 0⟩),
                  (12, ⟨CFVal.data account.password, 0⟩),
                  (13, ⟨CFVal.dict [(0, 1), (2, 10), (3, 11), (4, 12)], 0⟩),
                  (14, ⟨CFVal.str (errorMessageBytes c), 0⟩),
                  (15, ⟨CFVal.data (errorMessageBytes c), 0⟩)],
         next := 16, store := store, fault := some c,
         events := [Event.created 10, Event.created 11, Event.created 12,
                    Event.created 13, Event.released 13, Event.released 10,
                    Event.released 11, Event.released 12, Event.created 14,
                    Event.created 15, Event.released 15, Event.released 14],
         doubleFree := false, panicked := false }) := by
  simp only [add_generic_password, initFFI, firstDynamicHandle]
  simp [CFString_run, CFData_run]
  simp [create_dictionary_run, flattenPairs, retainMany, retain, heapGet, heapSet,
    List.lookup, kSecClass, kSecClassGenericPassword, kSecAttrService,
    kSecAttrAccount, kSecValueData]
  simp [SecItemAdd_fault]
  simp [CFRelease, heapGet, heapSet, releaseMembers, flattenPairs, List.lookup]
  simp [status_to_result, hc, KeychainError.fromOSStatus, SecCopyErrorMessageString, alloc,
    string_from_cf_string, CFStringCreateExternalRepresentation, vec_from_cfdata, dataVal,
    from_utf8_unchecked, CFRelease, heapGet, heapSet, releaseMembers,
    flattenPairs, List.lookup, errSecSuccess]
  exact hc

theorem add_char_fault_ok (store : List StoreEntry) (service : Bytes) (account : Account) :
    add_generic_password service account (initFFI store (some errSecSuccess)) =
      (Except.ok (),
       { heap := [(10, ⟨CFVal.str service, 0⟩),
                  (11, ⟨CFVal.str account.name, 0⟩),
                  (12, ⟨CFVal.data account.password, 0⟩),
                  (13, ⟨CFVal.dict [(0, 1), (2, 10), (3, 11), (4, 12)], 0⟩)],
         next := 14, store := store, fault := some errSecSuccess,
         events := [Event.created 10, Event.created 11, Event.created 12,
                    Event.created 13, Event.released 13, Event.released 10,
                    Event.released 11, Event.released 12],
         doubleFree := false, panicked := false }) := by
  simp only [add_generic_password, initFFI, firstDynamicHandle]
  simp [CFString_run, CFData_run]
  simp [create_dictionary_run, flattenPairs, retainMany, retain, heapGet, heapSet,
    List.lookup, kSecClass, kSecClassGenericPassword, kSecAttrService,
    kSecAttrAccount, kSecValueData]
  simp [SecItemAdd_fault, errSecSuccess]
  simp [CFRelease, heapGet, heapSet, releaseMembers, flattenPairs, List.lookup]
  simp [status_to_result, errSecSuccess]

theorem add_char_dup (store : List StoreEntry) (service : Bytes) (account : Account)
    (hdup : hasDuplicate store service account.name = true) :
    add_generic_password service account (initFFI store none) =
      (Except.error ⟨KeychainErrorCode.DuplicateItem, errorMessageBytes errSecDuplicateItem⟩,
       { heap := [(10, ⟨CFVal.str service, 0⟩),
                  (11, ⟨CFVal.str account.name, 0⟩),
                  (12, ⟨CFVal.data account.password, 0⟩),
                  (13, ⟨CFVal.dict [(0, 1), (2, 10), (3, 11), (4, 12)], 0⟩),
                  (14, ⟨CFVal.str (errorMessageBytes errSecDuplicateItem), 0⟩),
                  (15, ⟨CFVal.data (errorMessageBytes errSecDuplicateItem), 0⟩)],
         next := 16, store := store, fault := none,
         events := [Event.created 10, Event.created 11, Event.created 12,
                    Event.created 13,
                    Event.addRequest service account.name account.password,
                    Event.released 13, Event.released 10,
                    Event.released 11, Event.released 12, Event.created 14,
                    Event.created 15, Event.released 15, Event.released 14],
         doubleFree := false, panicked := false }) := by
  simp only [add_generic_password, initFFI, firstDynamicHandle]
  simp [CFString_run, CFData_run]
  simp [create_dictionary_run, flattenPairs, retainMany, retain, heapGet, heapSet,
    List.lookup, kSecClass, kSecClassGenericPassword, kSecAttrService,
    kSecAttrAccount, kSecValueData]
  simp [SecItemAdd, dictLookup, strVal, dataVal, heapGet, List.lookup, hdup,
    kSecAttrService, kSecAttrAccount, kSecValueData]
  simp [CFRelease, heapGet, heapSet, releaseMembers, flattenPairs, List.lookup]
  simp [status_to_result, errSecSuccess, errSecDuplicateItem, KeychainError.fromOSStatus,
    SecCopyErrorMessageString, alloc, string_from_cf_string,
    CFStringCreateExternalRepresentation, vec_from_cfdata, dataVal, from_utf8_unchecked,
    CFRelease, heapGet, heapSet, releaseMembers, flattenPairs, List.lookup,
    KeychainErrorCode.fromStatus, errSecAuthFailed, errSecItemNotFound,
    errSecInvalidOwnerEdit]

theorem add_char_ok (store : List StoreEntry) (service : Bytes) (account : Account)
    (hdup : hasDuplicate store service account.name = false) :
    add_generic_password service account (initFFI store none) =
      (Except.ok (),
       { heap := [(10, ⟨CFVal.str service, 0⟩),
                  (11, ⟨CFVal.str account.name, 0⟩),
                  (12, ⟨CFVal.data account.password, 0⟩),
                  (13, ⟨CFVal.dict [(0, 1), (2, 10), (3, 11), (4, 12)], 0⟩)],
         next := 14, store := store ++ [⟨service, account.name, account.password⟩],
         fault := none,
         events := [Event.created 10, Event.created 11, Event.created 12,
                    Event.created 13,
                    Event.addRequest service account.name account.password,
                    Event.released 13, Event.released 10,
                    Event.released 11, Event.released 12],
         doubleFree := false, panicked := false }) := by
  simp only [add_generic_password, initFFI, firstDynamicHandle]
  simp [CFString_run, CFData_run]
  simp [create_dictionary_run, flattenPairs, retainMany, retain, heapGet, heapSet,
    List.lookup, kSecClass, kSecClassGenericPassword, kSecAttrService,
    kSecAttrAccount, kSecValueData]
  simp [SecItemAdd, dictLookup, strVal, dataVal, heapGet, List.lookup, hdup,
    kSecAttrService, kSecAttrAccount, kSecValueData]
  simp [CFRelease, heapGet, heapSet, releaseMembers, flattenPairs, List.lookup]
  simp [status_to_result, errSecSuccess]

theorem delete_char_fault_err (c : OSStatus) (hc : ¬c = errSecSuccess)
    (store : List StoreEntry) (service : Bytes) :
    delete_generic_passwords_by_service service (initFFI store (some c)) =
      (Except.error ⟨KeychainErrorCode.fromStatus c, errorMessageBytes c⟩,
       { heap := [(10, ⟨CFVal.str service, 0⟩),
                  (11, ⟨CFVal.dict [(0, 1), (2, 10)], 0⟩),
                  (12, ⟨CFVal.str (errorMessageBytes c), 0⟩),
                  (13, ⟨CFVal.data (errorMessageBytes c), 0⟩)],
         next := 14, store := store, fault := some c,
         events := [Event.created 10, Event.created 11, Event.released 11,
                    Event.released 10, Event.created 12, Event.created 13,
                    Event.released 13, Event.released 12],
         doubleFree := false, panicked := false }) := by
  simp only [delete_generic_passwords_by_service, initFFI, firstDynamicHandle]
  simp [CFString_run]
  simp [create_dictionary_run, flattenPairs, retainMany, retain, heapGet, heapSet,
    List.lookup, kSecClass, kSecClassGenericPassword, kSecAttrService]
  simp [SecItemDelete_fault]
  simp [CFRelease, heapGet, heapSet, releaseMembers, flattenPairs, List.lookup]
  simp [status_to_result, hc, KeychainError.fromOSStatus, SecCopyErrorMessageString, alloc,
    string_from_cf_string, CFStringCreateExternalRepresentation, vec_from_cfdata, dataVal,
    from_utf8_unchecked, CFRelease, heapGet, heapSet, releaseMembers,
    flattenPairs, List.lookup, errSecSuccess]
  exact hc

theorem delete_char_fault_ok (store : List StoreEntry) (service : Bytes) :
    delete_generic_passwords_by_service service (initFFI store (some errSecSuccess)) =
      (Except.ok (),
       { heap := [(10, ⟨CFVal.str service, 0⟩),
                  (11, ⟨CFVal.dict [(0, 1), (2, 10)], 0⟩)],
         next := 12, store := store, fault := some errSecSuccess,
         events := [Event.created 10, Event.created 11, Event.released 11,
                    Event.released 10],
         doubleFree := false, panicked := false }) := by
  simp only [delete_generic_passwords_by_service, initFFI, firstDynamicHandle]
  simp [CFString_run]
  simp [create_dictionary_run, flattenPairs, retainMany, retain, heapGet, heapSet,
    List.lookup, kSecClass, kSecClassGenericPassword, kSecAttrService]
  simp [SecItemDelete_fault, errSecSuccess]
  simp [CFRelease, heapGet, heapSet, releaseMembers, flattenPairs, List.lookup]
  simp [status_to_result, errSecSuccess]

theorem delete_char_run (store : List StoreEntry) (service : Bytes) :
    delete_generic_passwords_by_service service (initFFI store none) =
      (Except.ok (),
       { heap := [(10, ⟨CFVal.str service, 0⟩),
                  (11, ⟨CFVal.dict [(0, 1), (2, 10)], 0⟩)],
         next := 12, store := removeService store service, fault := none,
         events := [Event.created 10, Event.created 11,
                    Event.deleteRequest kSecClassGenericPassword service,
                    Event.released 11, Event.released 10],
         doubleFree := false, panicked := false }) := by
  simp only [delete_generic_passwords_by_service, initFFI, firstDynamicHandle]
  simp [CFString_run]
  simp [create_dictionary_run, flattenPairs, retainMany, retain, heapGet, heapSet,
    List.lookup, kSecClass, kSecClassGenericPassword, kSecAttrService]
  simp [SecItemDelete, dictLookup, strVal, heapGet, List.lookup, kSecClass,
    kSecClassGenericPassword, kSecAttrService]
  simp [CFRelease, heapGet, heapSet, releaseMembers, flattenPairs, List.lookup]
  simp [status_to_result, errSecSuccess]

theorem find_char_fault_err (c : OSStatus) (hc : ¬c = errSecSuccess)
    (store : List StoreEntry) (service : Bytes) :
    find_generic_password_by_service service (initFFI store (some c)) =
      (some (Except.error ⟨KeychainErrorCode.fromStatus c, errorMessageBytes c⟩),
       { heap := [(10, ⟨CFVal.str service, 0⟩),
                  (11, ⟨CFVal.dict [(0, 1), (2, 10), (5, 6), (7, 9), (8, 9)], 0⟩),
                  (12, ⟨CFVal.str (errorMessageBytes c), 0⟩),
                  (13, ⟨CFVal.data (errorMessageBytes c), 0⟩)],
         next := 14, store := store, fault := some c,
         events := [Event.created 10, Event.created 11, Event.released 10,
                    Event.released 11, Event.created 12, Event.created 13,
                    Event.released 13, Event.released 12],
         doubleFree := false, panicked := false }) := by
  simp only [find_generic_password_by_service, initFFI, firstDynamicHandle]
  simp [CFString_run]
  simp [create_dictionary_run, flattenPairs, retainMany, retain, heapGet, heapSet,
    List.lookup, kSecClass, kSecClassGenericPassword, kSecAttrService,
    kSecMatchLimit, kSecMatchLimitOne, kSecReturnAttributes, kSecReturnData,
    kCFBooleanTrue]
  simp [SecItemCopyMatching_fault]
  simp [CFRelease, heapGet, heapSet, releaseMembers, flattenPairs, List.lookup]
  rw [find_after_copy_err c hc]
  simp [KeychainError.fromOSStatus, SecCopyErrorMessageString, alloc,
    string_from_cf_string, CFStringCreateExternalRepresentation, vec_from_cfdata,
    dataVal, from_utf8_unchecked, CFRelease, heapGet, heapSet,
    releaseMembers, flattenPairs, List.lookup]

theorem find_char_fault_ok (store : List StoreEntry) (service : Bytes) :
    find_generic_password_by_service service (initFFI store (some errSecSuccess)) =
      (none,
       { heap := [(10, ⟨CFVal.str service, 0⟩),
                  (11, ⟨CFVal.dict [(0, 1), (2, 10), (5, 6), (7, 9), (8, 9)], 0⟩)],
         next := 12, store := store, fault := some errSecSuccess,
         events := [Event.created 10, Event.created 11, Event.released 10,
                    Event.released 11],
         doubleFree := false, panicked := true }) := by
  simp only [find_generic_password_by_service, initFFI, firstDynamicHandle]
  simp [CFString_run]
  simp [create_dictionary_run, flattenPairs, retainMany, retain, heapGet, heapSet,
    List.lookup, kSecClass, kSecClassGenericPassword, kSecAttrService,
    kSecMatchLimit, kSecMatchLimitOne, kSecReturnAttributes, kSecReturnData,
    kCFBooleanTrue]
  simp [SecItemCopyMatching_fault]
  simp [CFRelease, heapGet, heapSet, releaseMembers, flattenPairs, List.lookup]
  rw [find_after_copy_panic]

theorem find_char_notfound (store : List StoreEntry) (service : Bytes)
    (hfind : firstForService store service = none) :
    find_generic_password_by_service service (initFFI store none) =
      (some (Except.error ⟨KeychainErrorCode.ItemNotFound,
                           errorMessageBytes errSecItemNotFound⟩),
       { heap := [(10, ⟨CFVal.str service, 0⟩),
                  (11, ⟨CFVal.dict [(0, 1), (2, 10), (5, 6), (7, 9), (8, 9)], 0⟩),
                  (12, ⟨CFVal.str (errorMessageBytes errSecItemNotFound), 0⟩),
                  (13, ⟨CFVal.data (errorMessageBytes errSecItemNotFound), 0⟩)],
         next := 14, store := store, fault := none,
         events := [Event.created 10, Event.created 11, Event.copyRequest service,
                    Event.released 10, Event.released 11, Event.created 12,
                    Event.created 13, Event.released 13, Event.released 12],
         doubleFree := false, panicked := false }) := by
  simp only [find_generic_password_by_service, initFFI, firstDynamicHandle]
  simp [CFString_run]
  simp [create_dictionary_run, flattenPairs, retainMany, retain, heapGet, heapSet,
    List.lookup, kSecClass, kSecClassGenericPassword, kSecAttrService,
    kSecMatchLimit, kSecMatchLimitOne, kSecReturnAttributes, kSecReturnData,
    kCFBooleanTrue]
  simp [SecItemCopyMatching, dictLookup, strVal, heapGet, List.lookup, hfind,
    kSecAttrService]
  simp [CFRelease, heapGet, heapSet, releaseMembers, flattenPairs, List.lookup]
  rw [find_after_copy_err errSecItemNotFound (by decide)]
  simp [KeychainError.fromOSStatus, SecCopyErrorMessageString, alloc,
    string_from_cf_string, CFStringCreateExternalRepresentation, vec_from_cfdata,
    dataVal, from_utf8_unchecked, CFRelease, heapGet, heapSet,
    releaseMembers, flattenPairs, List.lookup, KeychainErrorCode.fromStatus,
    errSecAuthFailed, errSecDuplicateItem, errSecItemNotFound, errSecInvalidOwnerEdit]

theorem find_char_found (store : List StoreEntry) (service : Bytes) (e : StoreEntry)
    (hfind : firstForService store service = some e) :
    find_generic_password_by_service service (initFFI store none) =
      (some (Except.ok ⟨e.account, e.password⟩),
       { heap := [(10, ⟨CFVal.str service, 0⟩),
                  (11, ⟨CFVal.dict [(0, 1), (2, 10), (5, 6), (7, 9), (8, 9)], 0⟩),
                  (12, ⟨CFVal.str e.account, 0⟩),
                  (13, ⟨CFVal.data e.password, 0⟩),
                  (14, ⟨CFVal.dict [(3, 12), (4, 13)], 0⟩),
                  (15, ⟨CFVal.data e.account, 0⟩)],
         next := 16, store := store, fault := none,
         events := [Event.created 10, Event.created 11, Event.copyRequest service,
                    Event.created 14, Event.released 10, Event.released 11,
                    Event.borrowed 12, Event.borrowed 13, Event.created 15,
                    Event.released 15, Event.released 14],
         doubleFree := false, panicked := false }) := by
  simp only [find_generic_password_by_service, initFFI, firstDynamicHandle]
  simp [CFString_run]
  simp [create_dictionary_run, flattenPairs, retainMany, retain, heapGet, heapSet,
    List.lookup, kSecClass, kSecClassGenericPassword, kSecAttrService,
    kSecMatchLimit, kSecMatchLimitOne, kSecReturnAttributes, kSecReturnData,
    kCFBooleanTrue]
  simp [SecItemCopyMatching, dictLookup, strVal, heapGet, List.lookup, hfind,
    kSecAttrService, alloc]
  simp [CFRelease, heapGet, heapSet, releaseMembers, flattenPairs, List.lookup]
  rw [find_after_copy_found]
  simp [convert_found, CFDictionaryGetValue, dictLookup, heapGet, List.lookup,
    kSecAttrAccount, kSecValueData]
  simp [string_from_cf_string, CFStringCreateExternalRepresentation, alloc,
    vec_from_cfdata, dataVal, heapGet, List.lookup, from_utf8_unchecked]
  simp [CFRelease, heapGet, heapSet, releaseMembers, flattenPairs, List.lookup]

end CharLemmas

/-! ## Generic heap lemmas -/

theorem heapGet_of_lt (hp : Heap) (n : Nat) (hlt : ∀ p ∈ hp, p.1 < n) :
    heapGet hp n = none := by
  induction hp with
  | nil => rfl
  | cons q t ih =>
    have hq := hlt q (List.mem_cons_self q t)
    have hne : (n == q.1) = false := by
      simp only [beq_eq_false_iff_ne, ne_eq]
      omega
    simp only [heapGet, List.lookup, hne]
    exact ih (fun p hint => hlt p (List.mem_cons_of_mem q hint))

theorem heapGet_append (hp hp2 : Heap) (n : Nat) :
    heapGet (hp ++ hp2) n =
      (match heapGet hp n with
       | some o => some o
       | none => heapGet hp2 n) := by
  induction hp with
  | nil => rfl
  | cons q t ih =>
    by_cases h : n == q.1
    · simp only [heapGet, List.cons_append, List.lookup, h]
    · simp only [heapGet, List.cons_append, List.lookup, h] at ih ⊢
      simp only [Bool.false_eq_true, if_false] at *
      exact ih

theorem heapGet_append_fresh (hp : Heap) (n : Nat) (o : CFObj)
    (hlt : ∀ p ∈ hp, p.1 < n) :
    heapGet (hp ++ [(n, o)]) n = some o := by
  rw [heapGet_append, heapGet_of_lt hp n hlt]
  simp [heapGet, List.lookup]

theorem heapSet_cons_eq (n : Nat) (v : CFObj) (t : Heap) (o : CFObj) :
    heapSet ((n, v) :: t) n o = (n, o) :: heapSet t n o := by
  simp [heapSet]

theorem heapSet_cons_ne (k : Nat) (v : CFObj) (t : Heap) (n : Nat) (o : CFObj)
    (hkn : ¬k = n) : heapSet ((k, v) :: t) n o = (k, v) :: heapSet t n o := by
  simp [heapSet, hkn]

theorem heapGet_cons_self (n : Nat) (v : CFObj) (t : Heap) :
    heapGet ((n, v) :: t) n = some v := by
  simp [heapGet, List.lookup]

theorem heapGet_cons_ne (m k : Nat) (v : CFObj) (t : Heap) (h : ¬m = k) :
    heapGet ((k, v) :: t) m = heapGet t m := by
  have hb : (m == k) = false := beq_eq_false_iff_ne.mpr h
  simp [heapGet, List.lookup, hb]

theorem heapGet_heapSet (hp : Heap) (n m : Nat) (o : CFObj) :
    heapGet (heapSet hp n o) m =
      (if m = n then (heapGet hp n).map (fun _ => o) else heapGet hp m) := by
  induction hp with
  | nil => simp [heapGet, heapSet, List.lookup]
  | cons q t ih =>
    obtain ⟨k, v⟩ := q
    by_cases hkn : k = n
    · subst hkn
      rw [heapSet_cons_eq]
      by_cases hmk : m = k
      · subst hmk
        rw [heapGet_cons_self, heapGet_cons_self, if_pos rfl]
        rfl
      · rw [heapGet_cons_ne m k o _ hmk, heapGet_cons_ne m k v _ hmk, ih, if_neg hmk,
          if_neg hmk]
    · rw [heapSet_cons_ne k v t n o hkn]
      by_cases hmk : m = k
      · subst hmk
        have hmn : ¬m = n := fun e => hkn (by rw [← e])
        rw [heapGet_cons_self, heapGet_cons_self, if_neg hmn]
      · rw [heapGet_cons_ne m k v _ hmk, heapGet_cons_ne m k v t hmk, ih]
        by_cases hmn : m = n
        · subst hmn
          rw [if_pos rfl, if_pos rfl, heapGet_cons_ne m k v t hmk]
        · rw [if_neg hmn, if_neg hmn]

theorem heapGet_retain (hp : Heap) (n m : Nat) :
    heapGet (retain hp n) m =
      (if m = n then (heapGet hp m).map (fun o => ⟨o.val, o.rc + 1⟩) else heapGet hp m) := by
  unfold retain
  by_cases hmn : m = n
  · subst hmn
    cases hg : heapGet hp m with
    | none => simp [hg]
    | some o => simp [heapGet_heapSet, hg]
  · cases hg : heapGet hp n with
    | none => simp [hmn]
    | some o => simp [heapGet_heapSet, hmn]

theorem heapGet_retainMany (hs : List Nat) (hp : Heap) (m : Nat) :
    heapGet (retainMany hs hp) m =
      (heapGet hp m).map (fun o => ⟨o.val, o.rc + hs.count m⟩) := by
  induction hs generalizing hp with
  | nil =>
    cases hg : heapGet hp m with
    | none => simp [retainMany, hg]
    | some o => simp [retainMany, hg]
  | cons h t ih =>
    rw [retainMany, ih, heapGet_retain]
    by_cases hmh : m = h
    · subst hmh
      cases heapGet hp m with
      | none => simp
      | some o =>
        simp [List.count_cons]
        omega
    · cases heapGet hp m <;> simp [List.count_cons, hmh]

/-! ## Store-level lemmas -/

theorem firstForService_removeService (l : List StoreEntry) (svc : Bytes) :
    firstForService (removeService l svc) svc = none := by
  induction l with
  | nil => rfl
  | cons e t ih =>
    by_cases he : e.service = svc
    · have hb : decide (e.service ≠ svc) = false := by simp [he]
      simp only [removeService, List.filter] at ih ⊢
      rw [hb]
      exact ih
    · have hb : decide (e.service ≠ svc) = true := by simp [he]
      have hb2 : decide (e.service = svc) = false := by simp [he]
      simp only [removeService, List.filter] at ih ⊢
      rw [hb]
      simp only [firstForService, List.find?, hb2] at ih ⊢
      exact ih

/-! ## Error-construction lemmas on well-formed states -/

/-- On a well-formed state, the error value built by
`KeychainError::from<OSStatus>` carries exactly the mapped code and the
store's message for that code (whatever the rest of the heap holds). -/
theorem fromOSStatus_fst (c : OSStatus) (st : FFI) (hwf : wfFFI st) :
    (KeychainError.fromOSStatus c st).1 =
      ⟨KeychainErrorCode.fromStatus c, errorMessageBytes c⟩ := by
  have h1 : heapGet (st.heap ++ [(st.next, ⟨CFVal.str (errorMessageBytes c), 1⟩)]) st.next
      = some ⟨CFVal.str (errorMessageBytes c), 1⟩ :=
    heapGet_append_fresh _ _ _ hwf
  have h3 : heapGet (st.heap ++ [(st.next, ⟨CFVal.str (errorMessageBytes c), 1⟩),
        (st.next + 1, ⟨CFVal.data (errorMessageBytes c), 1⟩)]) (st.next + 1)
      = some ⟨CFVal.data (errorMessageBytes c), 1⟩ := by
    rw [heapGet_append,
      heapGet_of_lt st.heap (st.next + 1) (fun p hp => Nat.lt_succ_of_lt (hwf p hp))]
    have hne : ((st.next + 1) == st.next) = false := by simp
    simp [heapGet, List.lookup, hne]
  simp only [KeychainError.fromOSStatus, SecCopyErrorMessageString, alloc,
    string_from_cf_string, CFStringCreateExternalRepresentation, vec_from_cfdata,
    dataVal, from_utf8_unchecked]
  simp [h1, h3]

/-- On a failing status and a well-formed state, `status_to_result` yields
exactly the error built from that status. -/
theorem status_to_result_err_fst (c : OSStatus) (hc : ¬c = errSecSuccess)
    (st : FFI) (hwf : wfFFI st) :
    (status_to_result c st).1 =
      Except.error ⟨KeychainErrorCode.fromStatus c, errorMessageBytes c⟩ := by
  rw [status_to_result_err c hc, fromOSStatus_fst c st hwf]

/-- A non-success status never maps to the image of the success status. -/
theorem fromStatus_ne_success (c : OSStatus) (hc : ¬c = errSecSuccess) :
    ¬KeychainErrorCode.fromStatus c = KeychainErrorCode.fromStatus errSecSuccess := by
  have h0 : KeychainErrorCode.fromStatus errSecSuccess =
      KeychainErrorCode.UnknownStatusCode 0 := by decide
  rw [h0]
  unfold KeychainErrorCode.fromStatus
  split_ifs <;> simp_all [errSecSuccess]

/-! ## The claims -/

/-- C4: the status-to-ErrorCode mapping is total and deterministic (it is a
function); the four known codes map to their named variants and every
other code maps to `UnknownStatusCode` carrying the value unchanged. -/
theorem claim4_code_mapping_total (s : OSStatus) :
    KeychainErrorCode.fromStatus errSecAuthFailed = KeychainErrorCode.AuthFailed
    ∧ KeychainErrorCode.fromStatus errSecDuplicateItem = KeychainErrorCode.DuplicateItem
    ∧ KeychainErrorCode.fromStatus errSecItemNotFound = KeychainErrorCode.ItemNotFound
    ∧ KeychainErrorCode.fromStatus errSecInvalidOwnerEdit = KeychainErrorCode.InvalidOwnerEdit
    ∧ (¬s = errSecAuthFailed → ¬s = errSecDuplicateItem → ¬s = errSecItemNotFound →
        ¬s = errSecInvalidOwnerEdit →
        KeychainErrorCode.fromStatus s = KeychainErrorCode.UnknownStatusCode s) := by
  refine ⟨by decide, by decide, by decide, by decide, ?_⟩
  intro h1 h2 h3 h4
  unfold KeychainErrorCode.fromStatus
  rw [if_neg h1, if_neg h2, if_neg h3, if_neg h4]

theorem claim4_witness :
    KeychainErrorCode.fromStatus 42 = KeychainErrorCode.UnknownStatusCode 42 :=
  (claim4_code_mapping_total 42).2.2.2.2 (by decide) (by decide) (by decide) (by decide)

/-- C3: a status equal to the success code yields `Ok`, any other status
yields `Err` whose code is mapped from that exact status and whose message
is the store's message for that exact status — for the shared mapper on
any well-formed state, and for each public operation under any foreign
status outcome. -/
theorem claim3_status_mapping (c : OSStatus) (st : FFI) (store : List StoreEntry)
    (service : Bytes) (account : Account) (hwf : wfFFI st) :
    (((status_to_result c st).1 = Except.ok ()) ↔ c = errSecSuccess)
    ∧ (¬c = errSecSuccess →
        (status_to_result c st).1 =
          Except.error ⟨KeychainErrorCode.fromStatus c, errorMessageBytes c⟩)
    ∧ (((add_generic_password service account (initFFI store (some c))).1 = Except.ok ())
        ↔ c = errSecSuccess)
    ∧ (¬c = errSecSuccess →
        (add_generic_password service account (initFFI store (some c))).1 =
          Except.error ⟨KeychainErrorCode.fromStatus c, errorMessageBytes c⟩)
    ∧ (((delete_generic_passwords_by_service service (initFFI store (some c))).1
          = Except.ok ()) ↔ c = errSecSuccess)
    ∧ (¬c = errSecSuccess →
        (delete_generic_passwords_by_service service (initFFI store (some c))).1 =
          Except.error ⟨KeychainErrorCode.fromStatus c, errorMessageBytes c⟩)
    ∧ (¬c = errSecSuccess →
        (find_generic_password_by_service service (initFFI store (some c))).1 =
          some (Except.error ⟨KeychainErrorCode.fromStatus c, errorMessageBytes c⟩)) := by
  refine ⟨?_, ?_, ?_, ?_, ?_, ?_, ?_⟩
  · by_cases hc : c = errSecSuccess
    · subst hc
      simp [status_to_result]
    · rw [status_to_result_err c hc]
      simp [hc]
  · intro hc
    exact status_to_result_err_fst c hc st hwf
  · by_cases hc : c = errSecSuccess
    · subst hc
      rw [add_char_fault_ok]
      simp
    · rw [add_char_fault_err c hc]
      simp [hc]
  · intro hc
    rw [add_char_fault_err c hc]
  · by_cases hc : c = errSecSuccess
    · subst hc
      rw [delete_char_fault_ok]
      simp
    · rw [delete_char_fault_err c hc]
      simp [hc]
  · intro hc
    rw [delete_char_fault_err c hc]
  · intro hc
    rw [find_char_fault_err c hc]

theorem claim3_witness :
    (status_to_result errSecAuthFailed (initFFI [] none)).1 =
      Except.error ⟨KeychainErrorCode.fromStatus errSecAuthFailed,
                    errorMessageBytes errSecAuthFailed⟩
    ∧ (add_generic_password [1] ⟨[2], [3]⟩ (initFFI [] (some errSecAuthFailed))).1 =
      Except.error ⟨KeychainErrorCode.fromStatus errSecAuthFailed,
                    errorMessageBytes errSecAuthFailed⟩ := by
  have hwf : wfFFI (initFFI [] none) := by
    intro p hp
    simp [initFFI] at hp
  exact ⟨(claim3_status_mapping errSecAuthFailed (initFFI [] none) [] [1] ⟨[2], [3]⟩
            hwf).2.1 (by decide),
         (claim3_status_mapping errSecAuthFailed (initFFI [] none) [] [1] ⟨[2], [3]⟩
            hwf).2.2.2.1 (by decide)⟩

/-- C6: exactly one success code exists (the shared mapper yields `Ok` for
it alone), and every error a public operation ever returns is built from a
non-success status, so no error code is ever the image of the success
code. -/
theorem claim6_success_never_error_code (c : OSStatus) (st : FFI)
    (store : List StoreEntry) (fault : Option OSStatus)
    (service : Bytes) (account : Account) :
    (((status_to_result c st).1 = Except.ok ()) ↔ c = errSecSuccess)
    ∧ (∀ e, (add_generic_password service account (initFFI store fault)).1
          = Except.error e →
        ∃ s, ¬s = errSecSuccess ∧ e.status = KeychainErrorCode.fromStatus s
          ∧ ¬e.status = KeychainErrorCode.fromStatus errSecSuccess)
    ∧ (∀ e, (delete_generic_passwords_by_service service (initFFI store fault)).1
          = Except.error e →
        ∃ s, ¬s = errSecSuccess ∧ e.status = KeychainErrorCode.fromStatus s
          ∧ ¬e.status = KeychainErrorCode.fromStatus errSecSuccess)
    ∧ (∀ e, (find_generic_password_by_service service (initFFI store fault)).1
          = some (Except.error e) →
        ∃ s, ¬s = errSecSuccess ∧ e.status = KeychainErrorCode.fromStatus s
          ∧ ¬e.status = KeychainErrorCode.fromStatus errSecSuccess) := by
  refine ⟨?_, ?_, ?_, ?_⟩
  · by_cases hc : c = errSecSuccess
    · subst hc
      simp [status_to_result]
    · rw [status_to_result_err c hc]
      simp [hc]
  · intro e he
    cases fault with
    | none =>
      by_cases hdup : hasDuplicate store service account.name = true
      · rw [add_char_dup store service account hdup] at he
        simp only [Except.error.injEq] at he
        subst he
        exact ⟨errSecDuplicateItem, by decide, by decide, by decide⟩
      · rw [add_char_ok store service account (by simpa using hdup)] at he
        simp at he
    | some c2 =>
      by_cases hc : c2 = errSecSuccess
      · subst hc
        rw [add_char_fault_ok] at he
        simp at he
      · rw [add_char_fault_err c2 hc] at he
        simp only [Except.error.injEq] at he
        subst he
        exact ⟨c2, hc, rfl, fromStatus_ne_success c2 hc⟩
  · intro e he
    cases fault with
    | none =>
      rw [delete_char_run] at he
      simp at he
    | some c2 =>
      by_cases hc : c2 = errSecSuccess
      · subst hc
        rw [delete_char_fault_ok] at he
        simp at he
      · rw [delete_char_fault_err c2 hc] at he
        simp only [Except.error.injEq] at he
        subst he
        exact ⟨c2, hc, rfl, fromStatus_ne_success c2 hc⟩
  · intro e he
    cases fault with
    | none =>
      cases hfind : firstForService store service with
      | none =>
        rw [find_char_notfound store service hfind] at he
        simp only [Option.some.injEq, Except.error.injEq] at he
        subst he
        exact ⟨errSecItemNotFound, by decide, by decide, by decide⟩
      | some entry =>
        rw [find_char_found store service entry hfind] at he
        simp at he
    | some c2 =>
      by_cases hc : c2 = errSecSuccess
      · subst hc
        rw [find_char_fault_ok] at he
        simp at he
      · rw [find_char_fault_err c2 hc] at he
        simp only [Option.some.injEq, Except.error.injEq] at he
        subst he
        exact ⟨c2, hc, rfl, fromStatus_ne_success c2 hc⟩

theorem balanced_mk (tr : List Event) (cs rs : List Nat)
    (hc : createdHandles tr = cs) (hr : releasedHandles tr = rs)
    (hperm : cs.Perm rs) (hnd : cs.Nodup) : balanced tr := by
  unfold balanced
  rw [hc, hr]
  exact ⟨hperm, hnd⟩

/-- C1: on every control path of every public operation (success, store
failure, fault, and even the broken-contract panic path of find), the
multiset of handles the operation acquires equals the multiset of handles
it releases, each acquired handle being fresh. -/
theorem claim1_every_created_object_released (store : List StoreEntry)
    (fault : Option OSStatus) (service : Bytes) (account : Account) :
    balanced (add_generic_password service account (initFFI store fault)).2.events
    ∧ balanced (delete_generic_passwords_by_service service (initFFI store fault)).2.events
    ∧ balanced (find_generic_password_by_service service (initFFI store fault)).2.events := by
  refine ⟨?_, ?_, ?_⟩
  · cases fault with
    | none =>
      by_cases hdup : hasDuplicate store service account.name = true
      · rw [add_char_dup store service account hdup]
        exact balanced_mk _ [10, 11, 12, 13, 14, 15] [13, 10, 11, 12, 15, 14]
          (by simp [createdHandles]) (by simp [releasedHandles]) (by decide) (by decide)
      · rw [add_char_ok store service account (by simpa using hdup)]
        exact balanced_mk _ [10, 11, 12, 13] [13, 10, 11, 12]
          (by simp [createdHandles]) (by simp [releasedHandles]) (by decide) (by decide)
    | some c =>
      by_cases hc : c = errSecSuccess
      · subst hc
        rw [add_char_fault_ok]
        exact balanced_mk _ [10, 11, 12, 13] [13, 10, 11, 12]
          (by simp [createdHandles]) (by simp [releasedHandles]) (by decide) (by decide)
      · rw [add_char_fault_err c hc]
        exact balanced_mk _ [10, 11, 12, 13, 14, 15] [13, 10, 11, 12, 15, 14]
          (by simp [createdHandles]) (by simp [releasedHandles]) (by decide) (by decide)
  · cases fault with
    | none =>
      rw [delete_char_run]
      exact balanced_mk _ [10, 11] [11, 10]
        (by simp [createdHandles]) (by simp [releasedHandles]) (by decide) (by decide)
    | some c =>
      by_cases hc : c = errSecSuccess
      · subst hc
        rw [delete_char_fault_ok]
        exact balanced_mk _ [10, 11] [11, 10]
          (by simp [createdHandles]) (by simp [releasedHandles]) (by decide) (by decide)
      · rw [delete_char_fault_err c hc]
        exact balanced_mk _ [10, 11, 12, 13] [11, 10, 13, 12]
          (by simp [createdHandles]) (by simp [releasedHandles]) (by decide) (by decide)
  · cases fault with
    | none =>
      cases hfind : firstForService store service with
      | none =>
        rw [find_char_notfound store service hfind]
        exact balanced_mk _ [10, 11, 12, 13] [10, 11, 13, 12]
          (by simp [createdHandles]) (by simp [releasedHandles]) (by decide) (by decide)
      | some entry =>
        rw [find_char_found store service entry hfind]
        exact balanced_mk _ [10, 11, 14, 15] [10, 11, 15, 14]
          (by simp [createdHandles]) (by simp [releasedHandles]) (by decide) (by decide)
    | some c =>
      by_cases hc : c = errSecSuccess
      · subst hc
        rw [find_char_fault_ok]
        exact balanced_mk _ [10, 11] [10, 11]
          (by simp [createdHandles]) (by simp [releasedHandles]) (by decide) (by decide)
      · rw [find_char_fault_err c hc]
        exact balanced_mk _ [10, 11, 12, 13] [10, 11, 13, 12]
          (by simp [createdHandles]) (by simp [releasedHandles]) (by decide) (by decide)

/-- C2: find never releases a handle it obtained as a borrowed view out of
the result container, and when it succeeds it releases the result
container itself exactly once, after borrowing both fields from it. -/
theorem claim2_borrowed_views_never_released (store : List StoreEntry)
    (fault : Option OSStatus) (service : Bytes) :
    (∀ h, h ∈ borrowedHandles
        (find_generic_password_by_service service (initFFI store fault)).2.events →
      List.count h (releasedHandles
        (find_generic_password_by_service service (initFFI store fault)).2.events) = 0)
    ∧ (∀ acc, (find_generic_password_by_service service (initFFI store fault)).1
          = some (Except.ok acc) →
        ∃ r ha hp,
          heapGet (find_generic_password_by_service service (initFFI store fault)).2.heap r
            = some ⟨CFVal.dict [(kSecAttrAccount, ha), (kSecValueData, hp)], 0⟩
          ∧ List.count r (releasedHandles
              (find_generic_password_by_service service (initFFI store fault)).2.events) = 1
          ∧ ha ∈ borrowedHandles
              (find_generic_password_by_service service (initFFI store fault)).2.events
          ∧ hp ∈ borrowedHandles
              (find_generic_password_by_service service (initFFI store fault)).2.events) := by
  cases fault with
  | none =>
    cases hfind : firstForService store service with
    | none =>
      rw [find_char_notfound store service hfind]
      refine ⟨?_, ?_⟩
      · intro h hmem
        simp [borrowedHandles] at hmem
      · intro acc hacc
        simp at hacc
    | some entry =>
      rw [find_char_found store service entry hfind]
      refine ⟨?_, ?_⟩
      · intro h hmem
        have h1213 : h = 12 ∨ h = 13 := by
          simpa [borrowedHandles] using hmem
        rcases h1213 with rfl | rfl
        · simp [releasedHandles]
        · simp [releasedHandles]
      · intro acc hacc
        refine ⟨14, 12, 13, ?_, ?_, ?_, ?_⟩
        · simp [heapGet, List.lookup, kSecAttrAccount, kSecValueData]
        · simp [releasedHandles]
        · simp [borrowedHandles]
        · simp [borrowedHandles]
  | some c =>
    by_cases hc : c = errSecSuccess
    · subst hc
      rw [find_char_fault_ok]
      refine ⟨?_, ?_⟩
      · intro h hmem
        simp [borrowedHandles] at hmem
      · intro acc hacc
        simp at hacc
    · rw [find_char_fault_err c hc]
      refine ⟨?_, ?_⟩
      · intro h hmem
        simp [borrowedHandles] at hmem
      · intro acc hacc
        simp at hacc

theorem claim2_witness :
    (12 ∈ borrowedHandles
        (find_generic_password_by_service [1] (initFFI [⟨[1], [2], [3]⟩] none)).2.events)
    ∧ List.count 12 (releasedHandles
        (find_generic_password_by_service [1] (initFFI [⟨[1], [2], [3]⟩] none)).2.events) = 0
    ∧ ∃ r ha hp,
        heapGet (find_generic_password_by_service [1]
            (initFFI [⟨[1], [2], [3]⟩] none)).2.heap r
          = some ⟨CFVal.dict [(kSecAttrAccount, ha), (kSecValueData, hp)], 0⟩
        ∧ List.count r (releasedHandles (find_generic_password_by_service [1]
            (initFFI [⟨[1], [2], [3]⟩] none)).2.events) = 1
        ∧ ha ∈ borrowedHandles (find_generic_password_by_service [1]
            (initFFI [⟨[1], [2], [3]⟩] none)).2.events
        ∧ hp ∈ borrowedHandles (find_generic_password_by_service [1]
            (initFFI [⟨[1], [2], [3]⟩] none)).2.events :=
  ⟨by decide,
   (claim2_borrowed_views_never_released [⟨[1], [2], [3]⟩] none [1]).1 12 (by decide),
   (claim2_borrowed_views_never_released [⟨[1], [2], [3]⟩] none [1]).2 ⟨[2], [3]⟩ rfl⟩

theorem claim6_witness :
    ∃ s, ¬s = errSecSuccess
      ∧ (KeychainError.mk KeychainErrorCode.DuplicateItem
          (errorMessageBytes errSecDuplicateItem)).status = KeychainErrorCode.fromStatus s
      ∧ ¬(KeychainError.mk KeychainErrorCode.DuplicateItem
          (errorMessageBytes errSecDuplicateItem)).status
          = KeychainErrorCode.fromStatus errSecSuccess :=
  (claim6_success_never_error_code 1 (initFFI [] none) [⟨[1], [2], [3]⟩] none
      [1] ⟨[2], [9]⟩).2.1
    ⟨KeychainErrorCode.DuplicateItem, errorMessageBytes errSecDuplicateItem⟩
    (by rw [add_char_dup [⟨[1], [2], [3]⟩] [1] ⟨[2], [9]⟩ (by decide)])

/-- C5: round-trip — from the empty store, add then find returns the very
account that was added; a subsequent delete then find reports
`ItemNotFound`.  Calls are sequenced through the persistent store; each
call runs in its own foreign-object session, as the operations' objects are
call-local. -/
theorem claim5_round_trip (service : Bytes) (account : Account)
    (hs : service ≠ []) (hn : account.name ≠ []) :
    (add_generic_password service account (initFFI [] none)).1 = Except.ok ()
    ∧ (find_generic_password_by_service service
        (initFFI (add_generic_password service account (initFFI [] none)).2.store none)).1
      = some (Except.ok account)
    ∧ (delete_generic_passwords_by_service service
        (initFFI (find_generic_password_by_service service
          (initFFI (add_generic_password service account
            (initFFI [] none)).2.store none)).2.store none)).1
      = Except.ok ()
    ∧ ∃ e, (find_generic_password_by_service service
          (initFFI (delete_generic_passwords_by_service service
            (initFFI (find_generic_password_by_service service
              (initFFI (add_generic_password service account
                (initFFI [] none)).2.store none)).2.store none)).2.store none)).1
        = some (Except.error e)
      ∧ e.status = KeychainErrorCode.ItemNotFound := by
  have hdup : hasDuplicate [] service account.name = false := rfl
  have h1 := add_char_ok [] service account hdup
  have hstore1 : (add_generic_password service account (initFFI [] none)).2.store
      = [⟨service, account.name, account.password⟩] := by
    rw [h1]
    rfl
  have hfind : firstForService [⟨service, account.name, account.password⟩] service
      = some ⟨service, account.name, account.password⟩ := by
    simp [firstForService, List.find?]
  have h2 := find_char_found [⟨service, account.name, account.password⟩] service
    ⟨service, account.name, account.password⟩ hfind
  have hstore2 : (find_generic_password_by_service service
      (initFFI [⟨service, account.name, account.password⟩] none)).2.store
      = [⟨service, account.name, account.password⟩] := by
    rw [h2]
  have hrem : removeService [⟨service, account.name, account.password⟩] service = [] := by
    simp [removeService]
  have h3 := delete_char_run [⟨service, account.name, account.password⟩] service
  have hstore3 : (delete_generic_passwords_by_service service
      (initFFI [⟨service, account.name, account.password⟩] none)).2.store = [] := by
    rw [h3]
    exact hrem
  have hfind4 : firstForService [] service = none := rfl
  have h4 := find_char_notfound [] service hfind4
  refine ⟨by rw [h1], ?_, ?_, ?_⟩
  · rw [hstore1, h2]
  · rw [hstore1, hstore2, h3]
  · rw [hstore1, hstore2, hstore3, h4]
    exact ⟨⟨KeychainErrorCode.ItemNotFound, errorMessageBytes errSecItemNotFound⟩,
      rfl, rfl⟩

theorem claim5_witness :
    (add_generic_password [1] ⟨[2], [3]⟩ (initFFI [] none)).1 = Except.ok ()
    ∧ (find_generic_password_by_service [1]
        (initFFI (add_generic_password [1] ⟨[2], [3]⟩ (initFFI [] none)).2.store none)).1
      = some (Except.ok ⟨[2], [3]⟩)
    ∧ (delete_generic_passwords_by_service [1]
        (initFFI (find_generic_password_by_service [1]
          (initFFI (add_generic_password [1] ⟨[2], [3]⟩
            (initFFI [] none)).2.store none)).2.store none)).1
      = Except.ok ()
    ∧ ∃ e, (find_generic_password_by_service [1]
          (initFFI (delete_generic_passwords_by_service [1]
            (initFFI (find_generic_password_by_service [1]
              (initFFI (add_generic_password [1] ⟨[2], [3]⟩
                (initFFI [] none)).2.store none)).2.store none)).2.store none)).1
        = some (Except.error e)
      ∧ e.status = KeychainErrorCode.ItemNotFound :=
  claim5_round_trip [1] ⟨[2], [3]⟩ (by decide) (by decide)

/-- C7: adding the same service and account name twice gives
`DuplicateItem` on the second call and leaves the store exactly as the
first call left it. -/
theorem claim7_duplicate_rejection (store : List StoreEntry) (service : Bytes)
    (a1 a2 : Account) (hname : a2.name = a1.name)
    (hdup : hasDuplicate store service a1.name = false) :
    (add_generic_password service a1 (initFFI store none)).1 = Except.ok ()
    ∧ (∃ e, (add_generic_password service a2
          (initFFI (add_generic_password service a1 (initFFI store none)).2.store none)).1
        = Except.error e ∧ e.status = KeychainErrorCode.DuplicateItem)
    ∧ (add_generic_password service a2
        (initFFI (add_generic_password service a1 (initFFI store none)).2.store none)).2.store
      = (add_generic_password service a1 (initFFI store none)).2.store := by
  have h1 := add_char_ok store service a1 hdup
  have hstore1 : (add_generic_password service a1 (initFFI store none)).2.store
      = store ++ [⟨service, a1.name, a1.password⟩] := by
    rw [h1]
  have hdup2 : hasDuplicate (store ++ [⟨service, a1.name, a1.password⟩])
      service a2.name = true := by
    simp [hasDuplicate, List.any_append, matchesKey, hname]
  have h2 := add_char_dup (store ++ [⟨service, a1.name, a1.password⟩]) service a2 hdup2
  refine ⟨by rw [h1], ?_, ?_⟩
  · rw [hstore1, h2]
    exact ⟨⟨KeychainErrorCode.DuplicateItem, errorMessageBytes errSecDuplicateItem⟩,
      rfl, rfl⟩
  · rw [hstore1, h2]

theorem claim7_witness :
    (add_generic_password [1] ⟨[2], [3]⟩ (initFFI [] none)).1 = Except.ok ()
    ∧ (∃ e, (add_generic_password [1] ⟨[2], [4]⟩
          (initFFI (add_generic_password [1] ⟨[2], [3]⟩ (initFFI [] none)).2.store none)).1
        = Except.error e ∧ e.status = KeychainErrorCode.DuplicateItem)
    ∧ (add_generic_password [1] ⟨[2], [4]⟩
        (initFFI (add_generic_password [1] ⟨[2], [3]⟩ (initFFI [] none)).2.store none)).2.store
      = (add_generic_password [1] ⟨[2], [3]⟩ (initFFI [] none)).2.store :=
  claim7_duplicate_rejection [] [1] ⟨[2], [3]⟩ ⟨[2], [4]⟩ rfl rfl

/-- C8: the delete operation issues exactly one delete request, whose query
carries the generic-password item class and the given service, and that
request removes every entry of the service: after any sequence of adds
under the service, a delete followed by a find reports `ItemNotFound`. -/
theorem claim8_bulk_delete (store : List StoreEntry) (service : Bytes)
    (accounts : List Account) :
    deleteRequests (delete_generic_passwords_by_service service (initFFI store none)).2.events
      = [Event.deleteRequest kSecClassGenericPassword service]
    ∧ (find_generic_password_by_service service
        (initFFI (delete_generic_passwords_by_service service
          (initFFI (accounts.foldl
            (fun st a => (add_generic_password service a (initFFI st none)).2.store)
            store) none)).2.store none)).1
      = some (Except.error ⟨KeychainErrorCode.ItemNotFound,
                            errorMessageBytes errSecItemNotFound⟩) := by
  refine ⟨?_, ?_⟩
  · rw [delete_char_run store service]
    simp [deleteRequests]
  · rw [delete_char_run]
    rw [find_char_notfound _ service (firstForService_removeService _ service)]

/-- C9: the dictionary builder returns a fresh collection owned by the
caller (reference count 1 at the fresh handle), retains its own reference
to every key and value handle it is given (each occurrence bumps that
handle's count, independent of the caller's reference), and the caller
remains responsible for the originals and the collection: the add
operation ends with no double release and every object fully released. -/
theorem claim9_dictionary_retains_copies (pairs : List (Nat × Nat)) (s : FFI)
    (store : List StoreEntry) (fault : Option OSStatus)
    (service : Bytes) (account : Account) (hwf : wfFFI s) :
    (create_dictionary pairs s).1 = s.next
    ∧ heapGet (create_dictionary pairs s).2.heap s.next = some ⟨CFVal.dict pairs, 1⟩
    ∧ (∀ h o, heapGet s.heap h = some o →
        heapGet (create_dictionary pairs s).2.heap h
          = some ⟨o.val, o.rc + (flattenPairs pairs).count h⟩)
    ∧ (add_generic_password service account (initFFI store fault)).2.doubleFree = false
    ∧ (∀ p ∈ (add_generic_password service account (initFFI store fault)).2.heap,
        p.2.rc = 0) := by
  refine ⟨rfl, ?_, ?_, ?_, ?_⟩
  · show heapGet (retainMany (flattenPairs pairs) s.heap
        ++ [(s.next, ⟨CFVal.dict pairs, 1⟩)]) s.next = some ⟨CFVal.dict pairs, 1⟩
    rw [heapGet_append, heapGet_retainMany, heapGet_of_lt s.heap s.next hwf]
    simp [heapGet, List.lookup]
  · intro h o hh
    show heapGet (retainMany (flattenPairs pairs) s.heap
        ++ [(s.next, ⟨CFVal.dict pairs, 1⟩)]) h = _
    rw [heapGet_append, heapGet_retainMany, hh]
    rfl
  · cases fault with
    | none =>
      by_cases hdup : hasDuplicate store service account.name = true
      · rw [add_char_dup store service account hdup]
      · rw [add_char_ok store service account (by simpa using hdup)]
    | some c =>
      by_cases hc : c = errSecSuccess
      · subst hc
        rw [add_char_fault_ok]
      · rw [add_char_fault_err c hc]
  · cases fault with
    | none =>
      by_cases hdup : hasDuplicate store service account.name = true
      · rw [add_char_dup store service account hdup]
        intro p hp
        simp only [List.mem_cons, List.not_mem_nil, or_false] at hp
        rcases hp with rfl | rfl | rfl | rfl | rfl | rfl <;> rfl
      · rw [add_char_ok store service account (by simpa using hdup)]
        intro p hp
        simp only [List.mem_cons, List.not_mem_nil, or_false] at hp
        rcases hp with rfl | rfl | rfl | rfl <;> rfl
    | some c =>
      by_cases hc : c = errSecSuccess
      · subst hc
        rw [add_char_fault_ok]
        intro p hp
        simp only [List.mem_cons, List.not_mem_nil, or_false] at hp
        rcases hp with rfl | rfl | rfl | rfl <;> rfl
      · rw [add_char_fault_err c hc]
        intro p hp
        simp only [List.mem_cons, List.not_mem_nil, or_false] at hp
        rcases hp with rfl | rfl | rfl | rfl | rfl | rfl <;> rfl

theorem claim9_witness :
    (create_dictionary [(0, 10)] ⟨[(10, ⟨CFVal.str [7], 1⟩)], 11, [], none, [], false,
        false⟩).1 = 11
    ∧ heapGet (create_dictionary [(0, 10)] ⟨[(10, ⟨CFVal.str [7], 1⟩)], 11, [], none, [],
        false, false⟩).2.heap 11 = some ⟨CFVal.dict [(0, 10)], 1⟩
    ∧ heapGet (create_dictionary [(0, 10)] ⟨[(10, ⟨CFVal.str [7], 1⟩)], 11, [], none, [],
        false, false⟩).2.heap 10
        = some ⟨(⟨CFVal.str [7], 1⟩ : CFObj).val,
                (⟨CFVal.str [7], 1⟩ : CFObj).rc + (flattenPairs [(0, 10)]).count 10⟩
    ∧ (add_generic_password [1] ⟨[2], [3]⟩ (initFFI [] none)).2.doubleFree = false :=
  ⟨(claim9_dictionary_retains_copies [(0, 10)] _ [] none [1] ⟨[2], [3]⟩ (by decide)).1,
   (claim9_dictionary_retains_copies [(0, 10)] _ [] none [1] ⟨[2], [3]⟩ (by decide)).2.1,
   (claim9_dictionary_retains_copies [(0, 10)] _ [] none [1] ⟨[2], [3]⟩
      (by decide)).2.2.1 10 ⟨CFVal.str [7], 1⟩ rfl,
   (claim9_dictionary_retains_copies [(0, 10)] ⟨[(10, ⟨CFVal.str [7], 1⟩)], 11, [], none,
      [], false, false⟩ [] none [1] ⟨[2], [3]⟩ (by decide)).2.2.2.1⟩

/-- C10: the byte-to-text conversions perform no UTF-8 validation — the
unchecked conversion returns its bytes untouched, the foreign-string
conversion returns the external-representation bytes untouched, and find
returns a stored non-UTF-8 password verbatim as text with no error. -/
theorem claim10_no_utf8_validation (b : Bytes) (h : Nat) (st : FFI) (bytes : Bytes)
    (rc : Nat) (service name pw : Bytes)
    (hwf : wfFFI st) (hh : heapGet st.heap h = some ⟨CFVal.str bytes, rc⟩)
    (hbad : utf8Valid pw = false) :
    from_utf8_unchecked b = b
    ∧ (string_from_cf_string h st).1 = bytes
    ∧ (find_generic_password_by_service service (initFFI [⟨service, name, pw⟩] none)).1
        = some (Except.ok ⟨name, pw⟩) := by
  refine ⟨rfl, ?_, ?_⟩
  · have hget : heapGet (st.heap ++ [(st.next, ⟨CFVal.data bytes, 1⟩)]) st.next
        = some ⟨CFVal.data bytes, 1⟩ :=
      heapGet_append_fresh _ _ _ hwf
    simp only [string_from_cf_string, CFStringCreateExternalRepresentation, alloc,
      vec_from_cfdata, dataVal, from_utf8_unchecked, hh]
    simp [hget]
  · have hfind : firstForService [⟨service, name, pw⟩] service
        = some ⟨service, name, pw⟩ := by
      simp [firstForService, List.find?]
    rw [find_char_found [⟨service, name, pw⟩] service ⟨service, name, pw⟩ hfind]

theorem claim10_witness :
    from_utf8_unchecked [1] = [1]
    ∧ (string_from_cf_string 10 ⟨[(10, ⟨CFVal.str [65], 3⟩)], 11, [], none, [], false,
        false⟩).1 = [65]
    ∧ utf8Valid [255] = false
    ∧ (find_generic_password_by_service [1] (initFFI [⟨[1], [2], [255]⟩] none)).1
        = some (Except.ok ⟨[2], [255]⟩) :=
  ⟨(claim10_no_utf8_validation [1] 10 ⟨[(10, ⟨CFVal.str [65], 3⟩)], 11, [], none, [],
      false, false⟩ [65] 3 [1] [2] [255] (by decide) rfl (by decide)).1,
   (claim10_no_utf8_validation [1] 10 ⟨[(10, ⟨CFVal.str [65], 3⟩)], 11, [], none, [],
      false, false⟩ [65] 3 [1] [2] [255] (by decide) rfl (by decide)).2.1,
   by decide,
   (claim10_no_utf8_validation [1] 10 ⟨[(10, ⟨CFVal.str [65], 3⟩)], 11, [], none, [],
      false, false⟩ [65] 3 [1] [2] [255] (by decide) rfl (by decide)).2.2⟩

end Keychain
